import Mathlib

/-!
Shallow embedding of the hotkey-action descriptor subsystem of 3RVX
(src/3RVX/HotkeyInfo.cpp): the action catalog, the argument store with its
lazy integer/double caches, the per-action validator, and the rendering of a
descriptor to a diagnostic string.

Modelling conventions:
 - C++ int is modelled as Lean Int; overflow of std::stoi is modelled by the
   explicit range check against intMin/intMax (std::stoi raises out_of_range,
   which the source absorbs to 0).
 - std::wstring is modelled as String.
 - std::unordered_map from unsigned int to a value is modelled as an
   association list with insert-overwrites semantics (mapInsert / List.lookup).
 - member functions mutating the object are modelled by explicit state
   passing: they return a pair of the C++ return value and the new state.
 - LogInvalid only formats and logs its reason; Valid is therefore modelled
   as returning the pair of the C++ boolean and the reason string it would
   log (none when no diagnostic is emitted).
-/

namespace ThreeRVX

/-- Action-name table, HotkeyInfo.cpp lines 12-30; 17 entries. -/
def ActionNames : List String := [
  "Increase Volume",
  "Decrease Volume",
  "Set Volume",
  "Mute",
  "Show Volume Slider",
  "Eject Drive",
  "Eject Last Disk",
  "Increase Brightness",
  "Decrease Brightness",
  "Set Brightness",
  "Brightness Slider",
  "Media Key",
  "Virtual Key",
  "Run",
  "Enable/Disable OSD",
  "Open Settings Dialog",
  "Exit 3RVX"]

/-- Media-key-name table, HotkeyInfo.cpp lines 32-37. -/
def MediaKeyNames : List String := [
  "Play/Pause",
  "Stop",
  "Next",
  "Previous"]

/-- Modelled from the spec: the HotkeyActions enumeration is declared in
HotkeyInfo.h, which is not among the visible sources. The spec fixes the
order of the enumerators and states that each action code is the index of
its entry in the action-name table, which pins the numeric values below. -/
def IncreaseVolume : Int := 0

def DecreaseVolume : Int := 1

def SetVolume : Int := 2

def Mute : Int := 3

def VolumeSlider : Int := 4

def EjectDrive : Int := 5

def EjectLastDisk : Int := 6

def IncreaseBrightness : Int := 7

def DecreaseBrightness : Int := 8

def SetBrightness : Int := 9

def BrightnessSlider : Int := 10

def MediaKey : Int := 11

def VirtualKey : Int := 12

def Run : Int := 13

def ToggleOSD : Int := 14

def OpenSettings : Int := 15

def ExitApp : Int := 16

namespace VolumeKeyArgTypes

/-- Modelled from the spec: the VolumeKeyArgTypes enumeration is declared in
HotkeyInfo.h, which is not among the visible sources; the spec fixes the
values NoArgs = 0, Units = 1, Percent = 2. The source casts a plain int to
this enumeration without clamping, so the model keeps Int as carrier. -/
def NoArgs : Int := 0

def Units : Int := 1

def Percent : Int := 2

end VolumeKeyArgTypes

/-- Smallest value of a 32-bit C++ int. -/
def intMin : Int := -(2 ^ 31)

/-- Largest value of a 32-bit C++ int. -/
def intMax : Int := 2 ^ 31 - 1

/-- Whitespace as skipped by strtol / strtod (isspace in the C locale). -/
def isSpaceChar (c : Char) : Bool :=
  c = ' ' || c = '\t' || c = '\n' || c = '\r' || c = '\x0b' || c = '\x0c'

/-- Value of a digit character in the given base, none when the character is
not a digit of that base. -/
def digitValue (base : Nat) (c : Char) : Option Nat :=
  let v : Option Nat :=
    if '0' ≤ c ∧ c ≤ '9' then some (c.toNat - '0'.toNat)
    else if 'a' ≤ c ∧ c ≤ 'z' then some (c.toNat - 'a'.toNat + 10)
    else if 'A' ≤ c ∧ c ≤ 'Z' then some (c.toNat - 'A'.toNat + 10)
    else none
  match v with
  | some d => if d < base then some d else none
  | none => none

/-- Accumulate a digit list into a natural number in the given base. -/
def digitsVal (base : Nat) (ds : List Char) : Nat :=
  ds.foldl (fun acc c => acc * base + ((digitValue base c).getD 0)) 0

/-- Strip the 0x / 0X prefix accepted by strtol in base 16, but only when a
hex digit follows it; otherwise the leading 0 is itself the parsed digit. -/
def hexStrip (cs : List Char) : List Char :=
  match cs with
  | '0' :: x :: rest =>
    if (x = 'x' || x = 'X')
        && (match rest with
            | c :: _ => (digitValue 16 c).isSome
            | [] => false) then rest
    else cs
  | _ => cs

/-- Model of std::stoi(s, nullptr, base) for base 10 and 16: skip leading
whitespace, optional sign, optional 0x prefix in base 16, then the maximal
run of digits; none when no digit is consumed (invalid_argument) or the
value does not fit a 32-bit int (out_of_range). Trailing characters are
ignored, as in the C++ function. -/
def stoiCore (base : Nat) (s : String) : Option Int :=
  let cs := s.data.dropWhile isSpaceChar
  let sgn : Int := match cs with
    | '-' :: _ => -1
    | _ => 1
  let cs1 : List Char := match cs with
    | '-' :: rest => rest
    | '+' :: rest => rest
    | _ => cs
  let cs2 := if base = 16 then hexStrip cs1 else cs1
  let ds := cs2.takeWhile (fun c => (digitValue base c).isSome)
  if ds.isEmpty then none
  else
    let v : Int := sgn * (digitsVal base ds : Int)
    if v < intMin ∨ v > intMax then none else some v

/-- Model of std::stod on the decimal format: skip leading whitespace,
optional sign, digits with an optional fractional part (at least one digit
overall), and an optional exponent that is only consumed when digits follow
the e. The value is kept exactly, as a rational. The hexadecimal, infinity
and nan forms of strtod, and the double range limits, are not modelled: no
claim depends on them. -/
def stodCore (s : String) : Option Rat :=
  let cs := s.data.dropWhile isSpaceChar
  let sgn : Rat := match cs with
    | '-' :: _ => -1
    | _ => 1
  let cs1 : List Char := match cs with
    | '-' :: rest => rest
    | '+' :: rest => rest
    | _ => cs
  let ipart := cs1.takeWhile (fun c => (digitValue 10 c).isSome)
  let cs2 := cs1.drop ipart.length
  let fpart : List Char := match cs2 with
    | '.' :: rest => rest.takeWhile (fun c => (digitValue 10 c).isSome)
    | _ => []
  let cs3 : List Char := match cs2 with
    | '.' :: rest => rest.drop fpart.length
    | _ => cs2
  if ipart.isEmpty ∧ fpart.isEmpty then none
  else
    let mant : Rat :=
      sgn * ((digitsVal 10 ipart : Rat)
        + (digitsVal 10 fpart : Rat) / ((10 : Rat) ^ fpart.length))
    let expo : Int := match cs3 with
      | e :: rest =>
        if e = 'e' ∨ e = 'E' then
          let esgn : Int := match rest with
            | '-' :: _ => -1
            | _ => 1
          let rest1 : List Char := match rest with
            | '-' :: r => r
            | '+' :: r => r
            | _ => rest
          let eds := rest1.takeWhile (fun c => (digitValue 10 c).isSome)
          if eds.isEmpty then 0 else esgn * (digitsVal 10 eds : Int)
        else 0
      | [] => 0
    some (if 0 ≤ expo then mant * (10 : Rat) ^ expo.toNat
          else mant / (10 : Rat) ^ (-expo).toNat)

/-- Insert-with-overwrite into an association list modelling std::map /
std::unordered_map indexing assignment. -/
def mapInsert {α : Type} (m : List (Nat × α)) (k : Nat) (v : α) :
    List (Nat × α) :=
  (k, v) :: m.filter (fun p => p.1 != k)

/-- State of a HotkeyInfo object: the data members visible in the source.
keyCombination, action and args keep their names from HotkeyInfo.cpp;
intArgs, doubleArgs and cacheOn model the private members whose names carry
a leading underscore in the source. -/
structure HotkeyInfo where
  keyCombination : Int
  action : Int
  args : List String
  intArgs : List (Nat × Int)
  doubleArgs : List (Nat × Rat)
  cacheOn : Bool

/-- HotkeyInfo.cpp lines 119-121: HasArgs. -/
def HotkeyInfo.HasArgs (h : HotkeyInfo) : Bool :=
  !(h.args.isEmpty)

/-- HotkeyInfo.cpp lines 123-129: HasArg. The subtraction args.size() - 1 is
guarded by the emptiness check, exactly as in the source, so the unsigned
wrap-around case is unreachable. -/
def HotkeyInfo.HasArg (h : HotkeyInfo) (argIdx : Nat) : Bool :=
  if h.args.isEmpty then false
  else decide (h.args.length - 1 ≥ argIdx)

/-- HotkeyInfo.cpp lines 65-81: ArgToInt. Returns the C++ return value and
the post-call state. Out-of-bounds vector access is undefined behaviour in
the source; the model reads the empty string there (theorems about parsing
carry an in-bounds hypothesis). -/
def HotkeyInfo.ArgToInt (h : HotkeyInfo) (argIdx : Nat) : Int × HotkeyInfo :=
  if h.cacheOn && (List.lookup argIdx h.intArgs).isSome then
    ((List.lookup argIdx h.intArgs).getD 0, h)
  else
    let i : Int := (stoiCore 10 (h.args.getD argIdx "")).getD 0
    (i, if h.cacheOn then { h with intArgs := mapInsert h.intArgs argIdx i }
        else h)

/-- HotkeyInfo.cpp lines 101-117: HexArgToInt. Note that it consults and
fills the same _intArgs cache as ArgToInt. -/
def HotkeyInfo.HexArgToInt (h : HotkeyInfo) (argIdx : Nat) :
    Int × HotkeyInfo :=
  if h.cacheOn && (List.lookup argIdx h.intArgs).isSome then
    ((List.lookup argIdx h.intArgs).getD 0, h)
  else
    let i : Int := (stoiCore 16 (h.args.getD argIdx "")).getD 0
    (i, if h.cacheOn then { h with intArgs := mapInsert h.intArgs argIdx i }
        else h)

/-- HotkeyInfo.cpp lines 83-99: ArgToDouble, with the _doubleArgs cache. -/
def HotkeyInfo.ArgToDouble (h : HotkeyInfo) (argIdx : Nat) :
    Rat × HotkeyInfo :=
  if h.cacheOn && (List.lookup argIdx h.doubleArgs).isSome then
    ((List.lookup argIdx h.doubleArgs).getD 0, h)
  else
    let d : Rat := (stodCore (h.args.getD argIdx "")).getD 0
    (d, if h.cacheOn then
          { h with doubleArgs := mapInsert h.doubleArgs argIdx d }
        else h)

/-- HotkeyInfo.cpp lines 139-141: EnableArgCache. -/
def HotkeyInfo.EnableArgCache (h : HotkeyInfo) : HotkeyInfo :=
  { h with cacheOn := true }

/-- HotkeyInfo.cpp lines 143-145: DisableArgCache. -/
def HotkeyInfo.DisableArgCache (h : HotkeyInfo) : HotkeyInfo :=
  { h with cacheOn := false }

/-- HotkeyInfo.cpp lines 147-150: ClearArgCache. -/
def HotkeyInfo.ClearArgCache (h : HotkeyInfo) : HotkeyInfo :=
  { h with intArgs := [], doubleArgs := [] }

/-- HotkeyInfo.cpp lines 51-63: VolumeArgType. The final case casts the int
returned by ArgToInt(1) to the enumeration, which preserves the value. -/
def HotkeyInfo.VolumeArgType (h : HotkeyInfo) : Int × HotkeyInfo :=
  if h.HasArgs = false then (VolumeKeyArgTypes.NoArgs, h)
  else if h.HasArg 1 = false then (VolumeKeyArgTypes.Units, h)
  else h.ArgToInt 1

/-- HotkeyInfo.cpp lines 152-217: Valid. The returned pair carries the C++
boolean together with the reason string passed to LogInvalid (none when the
function returns true), and the post-call state: the switch's volume and
brightness cases call ArgToInt, which can fill the cache. -/
def HotkeyInfo.Valid (h : HotkeyInfo) : (Bool × Option String) × HotkeyInfo :=
  if h.keyCombination ≤ 0 then
    ((false, some "No key combination"), h)
  else if h.action < 0 ∨ h.action > (ActionNames.length : Int) then
    ((false, some "Invalid action"), h)
  else if h.action = IncreaseVolume ∨ h.action = DecreaseVolume
      ∨ h.action = SetVolume ∨ h.action = IncreaseBrightness
      ∨ h.action = DecreaseBrightness ∨ h.action = SetBrightness then
    if h.HasArgs = false then
      ((true, none), h)
    else if h.args.getD 0 "" = "" then
      ((false, some "No first argument"), h)
    else
      if (h.ArgToInt 0).1 < 0 ∨ (h.ArgToInt 0).1 > 100 then
        ((false, some "Argument amount out of range"), (h.ArgToInt 0).2)
      else if (h.ArgToInt 0).1 = 0 ∧ h.action ≠ SetVolume
          ∧ h.action ≠ SetBrightness then
        ((false, some "Argument increment must be nonzero"), (h.ArgToInt 0).2)
      else if (h.ArgToInt 0).2.HasArg 1 then
        if ((h.ArgToInt 0).2.ArgToInt 1).1 < 0
            ∨ ((h.ArgToInt 0).2.ArgToInt 1).1 > 2 then
          ((false, some "Unknown increment type"), ((h.ArgToInt 0).2.ArgToInt 1).2)
        else ((true, none), ((h.ArgToInt 0).2.ArgToInt 1).2)
      else ((true, none), (h.ArgToInt 0).2)
  else if h.action = EjectDrive ∨ h.action = MediaKey ∨ h.action = Run then
    if h.HasArgs = false then ((false, some "Argument required"), h)
    else ((true, none), h)
  else
    ((true, none), h)

/-- Quote character used by ToString around each argument. -/
def quoteChar : String := String.singleton (Char.ofNat 39)

/-- Rendering of one argument block entry after another, each argument
quoted and followed by a space; recursive restatement of the accumulation
loop of ToString, used to state its shape. -/
def renderArgs : List String → String
  | [] => ""
  | a :: t => quoteChar ++ a ++ quoteChar ++ " " ++ renderArgs t

/-- Action segment of ToString, HotkeyInfo.cpp lines 225-228: the name from
the table when the action code is in range, otherwise the default. -/
def actionSegment (h : HotkeyInfo) : String :=
  if 0 ≤ h.action ∧ h.action < (ActionNames.length : Int) then
    ActionNames.getD h.action.toNat "(none)"
  else "(none)"

/-- HotkeyInfo.cpp lines 223-234: ToString. HotkeyManager::HotkeysToString
belongs to a collaborator outside the visible sources and is passed in as
the render parameter. -/
def HotkeyInfo.ToString (h : HotkeyInfo) (render : Int → String) : String :=
  render h.keyCombination ++ " -> " ++ actionSegment h ++ " [ "
    ++ (h.args.foldl (fun acc a => acc ++ (quoteChar ++ a ++ quoteChar ++ " ")) "")
    ++ "]"

end ThreeRVX

namespace ThreeRVX

/-! Helper lemmas about the association-list cache and the argument store. -/

/-- Looking up a key distinct from the filtered-out key is unchanged. -/
theorem lookup_filter_ne {α : Type} (j k : Nat) (hjk : j ≠ k) :
    ∀ m : List (Nat × α),
      List.lookup j (m.filter (fun p => p.1 != k)) = List.lookup j m
  | [] => rfl
  | (a, b) :: t => by
    have hjk' : (j == k) = false := by simp [hjk]
    by_cases hak : a = k
    · rw [hak]
      simp [List.filter_cons, List.lookup, hjk', lookup_filter_ne j k hjk t]
    · by_cases hja : j = a
      · simp [List.filter_cons, hak, List.lookup, hja]
      · simp [List.filter_cons, hak, List.lookup, hja,
          lookup_filter_ne j k hjk t]

/-- Inserting binds the inserted key. -/
theorem lookup_mapInsert_self {α : Type} (m : List (Nat × α)) (k : Nat)
    (v : α) : List.lookup k (mapInsert m k v) = some v := by
  simp [mapInsert, List.lookup]

/-- Inserting leaves other keys unchanged. -/
theorem lookup_mapInsert_ne {α : Type} (m : List (Nat × α)) (k : Nat) (v : α)
    (j : Nat) (hjk : j ≠ k) :
    List.lookup j (mapInsert m k v) = List.lookup j m := by
  have hjk' : (j == k) = false := by simp [hjk]
  simp [mapInsert, List.lookup, hjk', lookup_filter_ne j k hjk m]

/-- HasArg decides membership of the index in the argument sequence. -/
theorem hasArg_iff_aux (h : HotkeyInfo) (i : Nat) :
    h.HasArg i = true ↔ i < h.args.length := by
  unfold HotkeyInfo.HasArg
  cases hargs : h.args with
  | nil => simp
  | cons a t =>
    simp only [List.isEmpty_cons, Bool.false_eq_true, if_false,
      decide_eq_true_eq, List.length_cons]
    omega

/-- ArgToInt does not change the argument sequence. -/
theorem argToInt_args (h : HotkeyInfo) (i : Nat) :
    (h.ArgToInt i).2.args = h.args := by
  unfold HotkeyInfo.ArgToInt
  split
  · rfl
  · dsimp only
    split <;> rfl

/-- ArgToInt does not change the cache-enablement flag. -/
theorem argToInt_cacheOn (h : HotkeyInfo) (i : Nat) :
    (h.ArgToInt i).2.cacheOn = h.cacheOn := by
  unfold HotkeyInfo.ArgToInt
  split
  · rfl
  · dsimp only
    split <;> rfl

/-- ArgToInt touches the integer cache only at the index it was asked for. -/
theorem argToInt_lookup_ne (h : HotkeyInfo) (i j : Nat) (hji : j ≠ i) :
    List.lookup j (h.ArgToInt i).2.intArgs = List.lookup j h.intArgs := by
  unfold HotkeyInfo.ArgToInt
  split
  · rfl
  · dsimp only
    split
    · exact lookup_mapInsert_ne _ _ _ _ hji
    · rfl

/-- The value ArgToInt returns, read off the pre-call state. -/
theorem argToInt_fst (h : HotkeyInfo) (i : Nat) :
    (h.ArgToInt i).1 =
      if h.cacheOn && (List.lookup i h.intArgs).isSome then
        (List.lookup i h.intArgs).getD 0
      else (stoiCore 10 (h.args.getD i "")).getD 0 := by
  unfold HotkeyInfo.ArgToInt
  split <;> simp_all

/-- A call of ArgToInt at one index does not change the value a call at
another index returns. -/
theorem argToInt_fst_stable (h : HotkeyInfo) (i j : Nat) (hji : j ≠ i) :
    ((h.ArgToInt i).2.ArgToInt j).1 = (h.ArgToInt j).1 := by
  rw [argToInt_fst, argToInt_fst, argToInt_args, argToInt_cacheOn,
    argToInt_lookup_ne h i j hji]

/-- With caching enabled, after a call of ArgToInt the cache holds the value
the call returned. -/
theorem argToInt_caches (h : HotkeyInfo) (i : Nat) (hc : h.cacheOn = true) :
    List.lookup i (h.ArgToInt i).2.intArgs = some (h.ArgToInt i).1 := by
  cases hL : List.lookup i h.intArgs with
  | none => simp [HotkeyInfo.ArgToInt, hc, hL, lookup_mapInsert_self]
  | some v => simp [HotkeyInfo.ArgToInt, hc, hL]

end ThreeRVX

namespace ThreeRVX

/-- C1: the claimed invariant fails on the code. The validator of
HotkeyInfo.cpp line 158 rejects an action code only when it exceeds the
table size, an inclusive bound, so the descriptor with key combination 1,
action code 17 and no arguments is accepted by Valid although 17 is not
below the size of the 17-entry action-name table. -/
theorem valid_accepts_action_equal_table_size :
    ((({ keyCombination := 1, action := 17, args := [], intArgs := [],
         doubleArgs := [], cacheOn := false } : HotkeyInfo).Valid).1
      = (true, none))
    ∧ (17 : Int) = (ActionNames.length : Int) := by
  constructor
  · decide
  · decide

/-- C4: a descriptor whose key combination is not positive is rejected with
reason No key combination, whatever its action code, arguments and cache
state; the check is the first one in Valid, so nothing else is consulted. -/
theorem valid_requires_key_combination (h : HotkeyInfo)
    (hk : h.keyCombination ≤ 0) :
    (h.Valid).1 = (false, some "No key combination") := by
  unfold HotkeyInfo.Valid
  rw [if_pos hk]

/-- Witness for C4 at the spec scenario: key combination 0, action Mute,
no arguments. -/
theorem valid_requires_key_combination_witness :
    ((({ keyCombination := 0, action := 3, args := [], intArgs := [],
         doubleArgs := [], cacheOn := false } : HotkeyInfo).Valid).1
      = (false, some "No key combination")) :=
  valid_requires_key_combination _ (by decide)

/-- C5: for a positive key combination and action EjectDrive, MediaKey or
Run, Valid fails with reason Argument required exactly when the argument
sequence is empty, and succeeds with no further checks otherwise. -/
theorem valid_arg_required_iff_empty (h : HotkeyInfo)
    (hk : 0 < h.keyCombination)
    (ha : h.action = EjectDrive ∨ h.action = MediaKey ∨ h.action = Run) :
    (h.Valid).1 =
      if h.args.isEmpty then (false, some "Argument required")
      else (true, none) := by
  have hk' : ¬ h.keyCombination ≤ 0 := by omega
  have hrange : ¬ (h.action < 0 ∨ h.action > (ActionNames.length : Int)) := by
    rcases ha with ha | ha | ha <;> rw [ha] <;> decide
  have hvol : ¬ (h.action = IncreaseVolume ∨ h.action = DecreaseVolume
      ∨ h.action = SetVolume ∨ h.action = IncreaseBrightness
      ∨ h.action = DecreaseBrightness ∨ h.action = SetBrightness) := by
    rcases ha with ha | ha | ha <;> rw [ha] <;> decide
  unfold HotkeyInfo.Valid
  rw [if_neg hk', if_neg hrange, if_neg hvol, if_pos ha]
  by_cases he : h.args.isEmpty
  · have hHA : h.HasArgs = false := by
      simp [HotkeyInfo.HasArgs, he]
    rw [if_pos hHA, if_pos he]
  · have hHA : ¬ h.HasArgs = false := by
      simp [HotkeyInfo.HasArgs, he]
    rw [if_neg hHA, if_neg he]

/-- Witness for C5 at the spec scenario: key combination 0x10041, action
MediaKey, no arguments. -/
theorem valid_arg_required_iff_empty_witness :
    ((({ keyCombination := 0x10041, action := 11, args := [], intArgs := [],
         doubleArgs := [], cacheOn := false } : HotkeyInfo).Valid).1
      = (false, some "Argument required")) :=
  (valid_arg_required_iff_empty
    { keyCombination := 0x10041, action := 11, args := [], intArgs := [],
       doubleArgs := [], cacheOn := false }
    (by decide) (by decide)).trans (by decide)

/-- C9: HasArg answers true exactly when the index is below the length of
the argument sequence, index 0 on an empty sequence included. -/
theorem hasArg_true_iff (h : HotkeyInfo) (i : Nat) :
    h.HasArg i = true ↔ i < h.args.length :=
  hasArg_iff_aux h i

/-- C6: VolumeArgType classifies by the number of arguments: NoArgs on an
empty sequence, Units on a one-element sequence, and otherwise the plain
integer value of argument 1, not clamped to the enumeration's range. -/
theorem volumeArgType_spec (h : HotkeyInfo) :
    (h.VolumeArgType).1 =
      if h.args.length = 0 then VolumeKeyArgTypes.NoArgs
      else if h.args.length = 1 then VolumeKeyArgTypes.Units
      else (h.ArgToInt 1).1 := by
  unfold HotkeyInfo.VolumeArgType
  have hHA := hasArg_iff_aux h 1
  cases hargs : h.args with
  | nil =>
    simp [HotkeyInfo.HasArgs, hargs]
  | cons a t =>
    cases t with
    | nil =>
      have h1 : h.HasArg 1 = false := by
        rw [← Bool.not_eq_true, hHA, hargs]
        simp
      simp [HotkeyInfo.HasArgs, hargs, h1]
    | cons b t2 =>
      have h1 : h.HasArg 1 = true := by
        rw [hHA, hargs]
        simp
      simp [HotkeyInfo.HasArgs, hargs, h1]

end ThreeRVX

namespace ThreeRVX

/-- The accumulation loop of ToString renders the arguments one after the
other behind the accumulator. -/
theorem foldl_renderArgs :
    ∀ (l : List String) (acc : String),
      l.foldl (fun acc a => acc ++ (quoteChar ++ a ++ quoteChar ++ " ")) acc
        = acc ++ renderArgs l
  | [], acc => by simp [renderArgs]
  | a :: t, acc => by
    rw [List.foldl_cons,
      foldl_renderArgs t (acc ++ (quoteChar ++ a ++ quoteChar ++ " ")),
      renderArgs]
    simp [String.append_assoc]

/-- C3: ArgToInt and HexArgToInt read and write the same integer cache.
With caching enabled and no cached entry at the index, a first call parses
its own base and caches that value, and the other function then answers the
cached value of the wrong base instead of reparsing. -/
theorem int_cache_shared_across_bases (h : HotkeyInfo) (i : Nat)
    (hc : h.cacheOn = true) (hm : List.lookup i h.intArgs = none)
    (_hi : i < h.args.length) :
    (h.ArgToInt i).1 = (stoiCore 10 (h.args.getD i "")).getD 0 ∧
    ((h.ArgToInt i).2.HexArgToInt i).1 = (h.ArgToInt i).1 ∧
    (h.HexArgToInt i).1 = (stoiCore 16 (h.args.getD i "")).getD 0 ∧
    ((h.HexArgToInt i).2.ArgToInt i).1 = (h.HexArgToInt i).1 := by
  refine ⟨?_, ?_, ?_, ?_⟩
  · simp [HotkeyInfo.ArgToInt, hm]
  · simp [HotkeyInfo.ArgToInt, HotkeyInfo.HexArgToInt, hm, hc,
      lookup_mapInsert_self]
  · simp [HotkeyInfo.HexArgToInt, hm]
  · simp [HotkeyInfo.ArgToInt, HotkeyInfo.HexArgToInt, hm, hc,
      lookup_mapInsert_self]

/-- Witness for C3 on the argument 10: after ArgToInt the hex reader
answers the decimal value 10, and after HexArgToInt the decimal reader
answers the hex value 16. -/
theorem int_cache_shared_across_bases_witness :
    (((⟨1, 0, ["10"], [], [], true⟩ : HotkeyInfo).ArgToInt 0).2.HexArgToInt
        0).1 = 10 ∧
    (((⟨1, 0, ["10"], [], [], true⟩ : HotkeyInfo).HexArgToInt 0).2.ArgToInt
        0).1 = 16 := by
  have H := int_cache_shared_across_bases
    (⟨1, 0, ["10"], [], [], true⟩ : HotkeyInfo) 0 rfl rfl (by decide)
  constructor
  · rw [H.2.1, H.1]
    decide
  · rw [H.2.2.2, H.2.2.1]
    decide

/-- C7 counterexample: with caching enabled and a stale cached entry, the
parsers answer the cached value even though the stored argument string can
no longer be parsed, so the parse-failure result is not zero. Here the
descriptor caches 5 for index 0 while args holds the unparsable abc. -/
theorem parse_failure_cached_nonzero :
    stoiCore 10 ((⟨1, 0, ["abc"], [(0, 5)], [], true⟩ :
        HotkeyInfo).args.getD 0 "") = none ∧
    ((⟨1, 0, ["abc"], [(0, 5)], [], true⟩ : HotkeyInfo).ArgToInt 0).1 = 5 := by
  constructor
  · decide
  · decide

/-- C7 amended: when the call is not answered from the cache (caching off,
or no cached entry at the index), each reader returns the zero of its type
on a string its parser rejects; the functions are total, so no exception
reaches the caller. -/
theorem parse_failure_returns_zero_uncached (h : HotkeyInfo) (i : Nat)
    (_hi : i < h.args.length)
    (hmi : h.cacheOn = false ∨ List.lookup i h.intArgs = none)
    (hmd : h.cacheOn = false ∨ List.lookup i h.doubleArgs = none) :
    (stoiCore 10 (h.args.getD i "") = none → (h.ArgToInt i).1 = 0) ∧
    (stoiCore 16 (h.args.getD i "") = none → (h.HexArgToInt i).1 = 0) ∧
    (stodCore (h.args.getD i "") = none → (h.ArgToDouble i).1 = 0) := by
  have hci : (h.cacheOn && (List.lookup i h.intArgs).isSome) = false := by
    rcases hmi with hm | hm <;> simp [hm]
  have hcd : (h.cacheOn && (List.lookup i h.doubleArgs).isSome) = false := by
    rcases hmd with hm | hm <;> simp [hm]
  refine ⟨?_, ?_, ?_⟩
  · intro hp
    simp only [List.getD_eq_getElem?_getD] at hp
    simp [HotkeyInfo.ArgToInt, hci, hp]
  · intro hp
    simp only [List.getD_eq_getElem?_getD] at hp
    simp [HotkeyInfo.HexArgToInt, hci, hp]
  · intro hp
    simp only [List.getD_eq_getElem?_getD] at hp
    simp [HotkeyInfo.ArgToDouble, hcd, hp]

/-- Witness for C7 amended on the unparsable argument zz with caching
disabled: all three readers answer zero. -/
theorem parse_failure_returns_zero_uncached_witness :
    ((⟨1, 0, ["zz"], [], [], false⟩ : HotkeyInfo).ArgToInt 0).1 = 0 ∧
    ((⟨1, 0, ["zz"], [], [], false⟩ : HotkeyInfo).HexArgToInt 0).1 = 0 ∧
    ((⟨1, 0, ["zz"], [], [], false⟩ : HotkeyInfo).ArgToDouble 0).1 = 0 := by
  have H := parse_failure_returns_zero_uncached
    (⟨1, 0, ["zz"], [], [], false⟩ : HotkeyInfo) 0 (by decide)
    (Or.inl rfl) (Or.inl rfl)
  exact ⟨H.1 (by decide), H.2.1 (by decide), H.2.2 (by decide)⟩

/-- C8: ToString is the combination rendering, the separator, the action
segment and the bracketed argument block in which every argument appears
quoted and followed by a space; the action segment is the default exactly
when the action code misses the table. -/
theorem toString_shape (h : HotkeyInfo) (render : Int → String) :
    h.ToString render
      = render h.keyCombination ++ " -> " ++ actionSegment h ++ " [ "
        ++ renderArgs h.args ++ "]" ∧
    (actionSegment h = "(none)" ↔
      (h.action < 0 ∨ (ActionNames.length : Int) ≤ h.action)) := by
  constructor
  · unfold HotkeyInfo.ToString
    rw [foldl_renderArgs h.args ""]
    simp
  · unfold actionSegment
    by_cases hin : 0 ≤ h.action ∧ h.action < (ActionNames.length : Int)
    · rw [if_pos hin]
      have hb : h.action.toNat < ActionNames.length := by omega
      have hne : ∀ n, n < ActionNames.length →
          ActionNames.getD n "(none)" ≠ "(none)" := by decide
      exact iff_of_false (hne _ hb) (by omega)
    · rw [if_neg hin]
      exact iff_of_true rfl (by omega)

/-- A cache hit answers the cached value. -/
theorem argToInt_fst_of_cached (g : HotkeyInfo) (i : Nat) (v : Int)
    (hc : g.cacheOn = true) (hl : List.lookup i g.intArgs = some v) :
    (g.ArgToInt i).1 = v := by
  simp [HotkeyInfo.ArgToInt, hc, hl]

/-- C10: EnableArgCache and DisableArgCache change only the enablement
flag, so a value cached by ArgToInt survives a disable and re-enable cycle
and is answered again even after the argument string itself was replaced. -/
theorem cache_survives_disable_enable (h : HotkeyInfo) (i : Nat) (s : String)
    (hc : h.cacheOn = true) :
    h.EnableArgCache.intArgs = h.intArgs ∧
    h.EnableArgCache.doubleArgs = h.doubleArgs ∧
    h.EnableArgCache.args = h.args ∧
    h.DisableArgCache.intArgs = h.intArgs ∧
    h.DisableArgCache.doubleArgs = h.doubleArgs ∧
    h.DisableArgCache.args = h.args ∧
    (({ (h.ArgToInt i).2.DisableArgCache.EnableArgCache with
          args := (h.ArgToInt i).2.args.set i s } : HotkeyInfo).ArgToInt
        i).1 = (h.ArgToInt i).1 := by
  refine ⟨rfl, rfl, rfl, rfl, rfl, rfl, ?_⟩
  exact argToInt_fst_of_cached _ i _ rfl (argToInt_caches h i hc)

/-- Witness for C10: the value 7 cached for the argument string 7 is still
answered after disabling, re-enabling and overwriting the argument with the
unparsable abc. -/
theorem cache_survives_disable_enable_witness :
    ((⟨1, 0, ["abc"], [(0, 7)], [], true⟩ : HotkeyInfo).ArgToInt 0).1 = 7 := by
  have H := cache_survives_disable_enable
    (⟨1, 0, ["7"], [], [], true⟩ : HotkeyInfo) 0 "abc" rfl
  exact H.2.2.2.2.2.2

end ThreeRVX

namespace ThreeRVX

/-- C2: for a positive key combination and a volume or brightness action,
Valid accepts an empty argument sequence outright, and otherwise accepts
exactly when the first argument string is non-empty, its integer value lies
in 0..100 and is nonzero unless the action is one of the two Set actions,
and, when a second argument exists, the integer value of argument 1 lies
in 0..2. The integer values are the ones ArgToInt reads on the descriptor,
cache included, exactly as the validator obtains them. -/
theorem valid_volume_brightness_iff (h : HotkeyInfo)
    (hk : 0 < h.keyCombination)
    (ha : h.action = IncreaseVolume ∨ h.action = DecreaseVolume
      ∨ h.action = SetVolume ∨ h.action = IncreaseBrightness
      ∨ h.action = DecreaseBrightness ∨ h.action = SetBrightness) :
    (h.args = [] → (h.Valid).1 = (true, none)) ∧
    (h.args ≠ [] →
      ((h.Valid).1.1 = true ↔
        (h.args.getD 0 "" ≠ ""
          ∧ 0 ≤ (h.ArgToInt 0).1 ∧ (h.ArgToInt 0).1 ≤ 100
          ∧ ((h.ArgToInt 0).1 ≠ 0 ∨ h.action = SetVolume
              ∨ h.action = SetBrightness)
          ∧ (1 < h.args.length →
              0 ≤ (h.ArgToInt 1).1 ∧ (h.ArgToInt 1).1 ≤ 2)))) := by
  have hk' : ¬ h.keyCombination ≤ 0 := by omega
  have hrange : ¬ (h.action < 0 ∨ h.action > (ActionNames.length : Int)) := by
    rcases ha with ha | ha | ha | ha | ha | ha <;> rw [ha] <;> decide
  unfold HotkeyInfo.Valid
  rw [if_neg hk', if_neg hrange, if_pos ha]
  constructor
  · intro he
    have hHA : h.HasArgs = false := by simp [HotkeyInfo.HasArgs, he]
    rw [if_pos hHA]
  · intro hne
    have hHA : ¬ h.HasArgs = false := by simp [HotkeyInfo.HasArgs, hne]
    rw [if_neg hHA]
    by_cases h0 : h.args.getD 0 "" = ""
    · rw [if_pos h0]
      refine iff_of_false (by simp) ?_
      rintro ⟨hc1, -, -, -, -⟩
      exact hc1 h0
    · rw [if_neg h0]
      by_cases hr : (h.ArgToInt 0).1 < 0 ∨ (h.ArgToInt 0).1 > 100
      · rw [if_pos hr]
        refine iff_of_false (by simp) ?_
        rintro ⟨-, hc2, hc3, -, -⟩
        omega
      · rw [if_neg hr]
        by_cases hz : (h.ArgToInt 0).1 = 0 ∧ h.action ≠ SetVolume
            ∧ h.action ≠ SetBrightness
        · rw [if_pos hz]
          refine iff_of_false (by simp) ?_
          rintro ⟨-, -, -, hc4, -⟩
          rcases hc4 with hc4 | hc4 | hc4
          · exact hc4 hz.1
          · exact hz.2.1 hc4
          · exact hz.2.2 hc4
        · rw [if_neg hz]
          have hHA1 : ((h.ArgToInt 0).2.HasArg 1 = true) ↔
              1 < h.args.length := by
            rw [hasArg_iff_aux, argToInt_args]
          have hstable : ((h.ArgToInt 0).2.ArgToInt 1).1 = (h.ArgToInt 1).1 :=
            argToInt_fst_stable h 0 1 (by decide)
          by_cases h1a : (h.ArgToInt 0).2.HasArg 1 = true
          · rw [if_pos h1a]
            by_cases ht : ((h.ArgToInt 0).2.ArgToInt 1).1 < 0
                ∨ ((h.ArgToInt 0).2.ArgToInt 1).1 > 2
            · rw [if_pos ht]
              refine iff_of_false (by simp) ?_
              rintro ⟨-, -, -, -, hc5⟩
              have hb := hc5 (hHA1.mp h1a)
              rw [hstable] at ht
              omega
            · rw [if_neg ht]
              refine iff_of_true rfl ?_
              rw [hstable] at ht
              refine ⟨h0, by omega, by omega, by tauto, fun _ => by omega⟩
          · rw [if_neg h1a]
            refine iff_of_true rfl ?_
            refine ⟨h0, by omega, by omega, by tauto, fun hlen => ?_⟩
            exact absurd (hHA1.mpr hlen) h1a

/-- Witness for C2 at the spec scenario: key combination 0x10041, action
SetVolume, single argument 0, which the validator accepts because zero is
allowed for the Set actions. -/
theorem valid_volume_brightness_iff_witness :
    ((({ keyCombination := 0x10041, action := 2, args := ["0"],
         intArgs := [], doubleArgs := [],
         cacheOn := false } : HotkeyInfo).Valid).1.1 = true) := by
  have H := valid_volume_brightness_iff
    { keyCombination := 0x10041, action := 2, args := ["0"],
      intArgs := [], doubleArgs := [], cacheOn := false }
    (by decide) (by decide)
  exact (H.2 (by decide)).mpr (by decide)

end ThreeRVX
